import Mathlib

/-!
Verification development for the image-gem image-transformation gateway.

The definitions below are a shallow embedding of `api/v1/image.go` (handler
`ImageGet` and its helpers), `server.go` and `config/config.go` of the
repository.  Query strings are modelled as ordered association lists of
key/value pairs (Go's `url.Values.Get` returns the first value for a key, or
the empty string when absent).  Machine integers are modelled as `Int`/`Nat`
(all values involved are tiny, far from any overflow).  Go `float64` values
are modelled by `GoFloat`: NaN, the two infinities, and finite values as
exact rationals, with the IEEE comparison semantics the code's range checks
rely on (every comparison with NaN is false); resize arithmetic stays over
`ℚ`, where the quotient comparisons against -1, 0 and 1 agree with the
float64 evaluation for the magnitudes involved.
-/

namespace ImageGem

/-- Output formats distinguished by `parseImageFormat` / `ExportImage` in
`api/v1/image.go`.  `unknown` is `vips.ImageTypeUnknown`; every other source
format an upstream can declare is collapsed onto this enum by the decoder
model (formats outside it never reach the export switch's named cases). -/
inductive ImageType where
  | unknown
  | jpeg
  | png
  | webp
  | heif
  | tiff
  | avif
  | jp2k
  | gif
  deriving DecidableEq, Repr

/-- A Go `float64` as produced by `strconv.ParseFloat`: NaN, an infinity, or
a finite value represented exactly as a rational. -/
inductive GoFloat where
  | nan
  | posInf
  | negInf
  | val (q : ℚ)
  deriving DecidableEq, Repr

/-- IEEE-754 comparison `a < b` on parsed float values: every comparison
involving NaN is false.  This is the comparison the Go range check
`num < min || num > max` performs. -/
def gfLt : GoFloat → GoFloat → Bool
  | .nan, _ => false
  | _, .nan => false
  | .negInf, .negInf => false
  | .negInf, .posInf => true
  | .negInf, .val _ => true
  | .posInf, _ => false
  | .val _, .negInf => false
  | .val _, .posInf => true
  | .val a, .val b => decide (a < b)

/-- Structured form of the validation errors produced with `fmt.Errorf` in
`parseIntQueryParam`, `parseFloatQueryParam` and `parseImageFormat`: each
constructor records exactly the data interpolated into the Go format string
(the offending key and the supplied value). -/
inductive ValErr where
  | intParse (key : String) (input : String)
  | intRange (key : String) (lo hi : Int) (input : Int)
  | floatParse (key : String) (input : String)
  | floatRange (key : String) (lo hi : ℚ) (input : GoFloat)
  | badFormat (input : String)
  deriving DecidableEq, Repr

/-- Model of `r.URL.Query().Get(key)`: first value bound to `key`, or `""`
when the key is absent. -/
def getQ (q : List (String × String)) (key : String) : String :=
  match q.find? (fun p => p.1 == key) with
  | some p => p.2
  | none => ""

/-- Decimal digit run evaluated as a natural number; `none` when a non-digit
occurs. -/
def digitsVal : List Char → Nat → Option Nat
  | [], acc => some acc
  | c :: rest, acc =>
      if c.isDigit then digitsVal rest (acc * 10 + (c.toNat - 48)) else none

/-- Nonempty all-digit run to a natural number. -/
def digitsToNat : List Char → Option Nat
  | [] => none
  | l => digitsVal l 0

/-- Model of Go `strconv.Atoi`: optional sign followed by at least one ASCII
digit, nothing else.  (64-bit overflow is not modelled; a literal that large
is out of every range checked by the handler either way.) -/
def goAtoi (s : String) : Option Int :=
  match s.toList with
  | '+' :: rest => (digitsToNat rest).map (fun n => (n : Int))
  | '-' :: rest => (digitsToNat rest).map (fun n => -(n : Int))
  | l => (digitsToNat l).map (fun n => (n : Int))

/-- Model of `parseIntQueryParam` from `api/v1/image.go`: walk the alias keys
in order; the first key bound to a nonempty value is parsed and range-checked
([lo, hi] inclusive); when no key is present the parameter defaults to 0. -/
def parseIntQueryParam (q : List (String × String)) (lo hi : Int) :
    List String → Except ValErr Int
  | [] => .ok 0
  | key :: keys =>
      let value := getQ q key
      if value ≠ "" then
        match goAtoi value with
        | none => .error (.intParse key value)
        | some num =>
            if num < lo ∨ num > hi then .error (.intRange key lo hi num)
            else .ok num
      else parseIntQueryParam q lo hi keys

/-- Digit run to `Nat` (total; callers check nonemptiness). -/
def chNat (l : List Char) : Nat :=
  l.foldl (fun a c => a * 10 + (c.toNat - 48)) 0

/-- Longest leading digit run and the remaining characters. -/
def spanDigits : List Char → List Char × List Char
  | [] => ([], [])
  | c :: rest =>
      if c.isDigit then
        let r := spanDigits rest
        (c :: r.1, r.2)
      else ([], c :: rest)

/-- Exponent part after an `e`/`E`: optional sign and a nonempty digit run. -/
def parseExpPart : List Char → Option Int
  | [] => none
  | '+' :: r => if r ≠ [] ∧ r.all Char.isDigit then some (chNat r : Int) else none
  | '-' :: r => if r ≠ [] ∧ r.all Char.isDigit then some (-(chNat r : Int)) else none
  | r => if r.all Char.isDigit then some (chNat r : Int) else none

/-- Value of an ASCII hex digit, `none` for other characters. -/
def hexDigitVal (c : Char) : Option Nat :=
  if c.isDigit then some (c.toNat - 48)
  else if 'a' ≤ c ∧ c ≤ 'f' then some (c.toNat - 87)
  else if 'A' ≤ c ∧ c ≤ 'F' then some (c.toNat - 55)
  else none

/-- Longest leading hex-digit run and the remaining characters. -/
def spanHexDigits : List Char → List Char × List Char
  | [] => ([], [])
  | c :: rest =>
      if (hexDigitVal c).isSome then
        let r := spanHexDigits rest
        (c :: r.1, r.2)
      else ([], c :: rest)

/-- Hex digit run to `Nat`. -/
def chHexNat (l : List Char) : Nat :=
  l.foldl (fun a c => a * 16 + ((hexDigitVal c).getD 0)) 0

/-- Character classes tracked by Go's `underscoreOK` scan. -/
inductive SawClass where
  | start
  | digit
  | underscore
  | other
  deriving DecidableEq, Repr

/-- Loop of `strconv.underscoreOK`: every underscore must be directly
preceded and followed by a digit (the base suffix of a `0x` run counts as a
digit position). -/
def underscoreOKLoop (hex : Bool) : SawClass → List Char → Bool
  | saw, [] => saw ≠ .underscore
  | saw, c :: rest =>
      if c.isDigit ∨ (hex ∧ 'a' ≤ Char.toLower c ∧ Char.toLower c ≤ 'f') then
        underscoreOKLoop hex .digit rest
      else if c = '_' then
        if saw ≠ .digit then false else underscoreOKLoop hex .underscore rest
      else if saw = .underscore then false
      else underscoreOKLoop hex .other rest

/-- Model of `strconv.underscoreOK`: validates underscore placement per the
Go literal syntax (optional sign, optional `0b`/`0o`/`0x` prefix, then the
scan).  It can only return false for strings that contain an underscore. -/
def underscoreOK (l : List Char) : Bool :=
  let l1 : List Char :=
    match l with
    | '+' :: r => r
    | '-' :: r => r
    | r => r
  match l1 with
  | '0' :: c :: rest =>
      if Char.toLower c = 'b' ∨ Char.toLower c = 'o' ∨ Char.toLower c = 'x' then
        underscoreOKLoop (Char.toLower c = 'x') .digit rest
      else underscoreOKLoop false .start l1
  | _ => underscoreOKLoop false .start l1

/-- Model of `strconv.special` as used by ParseFloat on the full string:
`nan` (case-insensitive, no sign allowed) and optionally signed `inf` /
`infinity` (case-insensitive). -/
def goParseSpecial (l : List Char) : Option GoFloat :=
  let sgn : Bool × List Char :=
    match l with
    | '+' :: r => (false, r)
    | '-' :: r => (true, r)
    | r => (false, r)
  let low := sgn.2.map Char.toLower
  if low = ['i', 'n', 'f'] ∨ low = ['i', 'n', 'f', 'i', 'n', 'i', 't', 'y'] then
    some (if sgn.1 then .negInf else .posInf)
  else if l.map Char.toLower = ['n', 'a', 'n'] then some .nan
  else none

/-- Decimal numeral (digits with an optional fractional part and optional
decimal exponent) as an exact numerator/denominator pair, computed purely
with machine-integer arithmetic so that concrete parses evaluate by kernel
reduction. -/
def goParseFloatDecimal (neg : Bool) (l : List Char) : Option (Int × Nat) :=
  let ipr := spanDigits l
  let fpr : List Char × List Char :=
    match ipr.2 with
    | '.' :: r => spanDigits r
    | r => ([], r)
  if ipr.1 = [] ∧ fpr.1 = [] then none
  else
    let d : Nat := chNat ipr.1 * 10 ^ fpr.1.length + chNat fpr.1
    let mkv : Int → Option (Int × Nat) := fun e =>
      let num : Nat := d * 10 ^ e.toNat
      let den : Nat := 10 ^ fpr.1.length * 10 ^ (-e).toNat
      some (if neg then -(num : Int) else (num : Int), den)
    match fpr.2 with
    | [] => mkv 0
    | 'e' :: r => (parseExpPart r).bind mkv
    | 'E' :: r => (parseExpPart r).bind mkv
    | _ => none

/-- Numeral body of `strconv.ParseFloat`: underscore validation and
stripping, then either a hex mantissa with its mandatory binary `p`
exponent, or a decimal numeral; the exact value as a numerator/denominator
pair. -/
def goParseFloatNumeral (l0 : List Char) : Option (Int × Nat) :=
  if underscoreOK l0 = false then none
  else
    let l := l0.filter (fun c => c ≠ '_')
    let sgn : Bool × List Char :=
      match l with
      | '+' :: r => (false, r)
      | '-' :: r => (true, r)
      | r => (false, r)
    match sgn.2 with
    | '0' :: c :: rest =>
        if c = 'x' ∨ c = 'X' then
          let ipr := spanHexDigits rest
          let fpr : List Char × List Char :=
            match ipr.2 with
            | '.' :: r => spanHexDigits r
            | r => ([], r)
          if ipr.1 = [] ∧ fpr.1 = [] then none
          else
            let d : Nat := chHexNat ipr.1 * 16 ^ fpr.1.length + chHexNat fpr.1
            let mkv : Int → Option (Int × Nat) := fun e =>
              let num : Nat := d * 2 ^ e.toNat
              let den : Nat := 16 ^ fpr.1.length * 2 ^ (-e).toNat
              some (if sgn.1 then -(num : Int) else (num : Int), den)
            match fpr.2 with
            | 'p' :: r => (parseExpPart r).bind mkv
            | 'P' :: r => (parseExpPart r).bind mkv
            | _ => none
        else goParseFloatDecimal sgn.1 sgn.2
    | _ => goParseFloatDecimal sgn.1 sgn.2

/-- Model of Go `strconv.ParseFloat`: the special values NaN and ±Inf, then
underscore-validated hex or decimal numerals evaluated exactly as rationals,
rejected — as the ErrRange failure the handler treats like any parse
failure — when the magnitude reaches the smallest value that rounds to ±Inf
in float64 ((2^54 - 1)·2^970, half an ULP above the largest finite value) or
when a nonzero magnitude is at most 2^-1075 and so rounds to zero.  The
remaining abstraction is the binary rounding of finite in-range values: a
numeral within half an ULP of the boundaries 0 and 1 compares exactly here
but rounded in float64, which cannot differ for numerals of ordinary
length. -/
def goParseFloat (s : String) : Option GoFloat :=
  match goParseSpecial s.toList with
  | some f => some f
  | none =>
      match goParseFloatNumeral s.toList with
      | none => none
      | some nd =>
          if (2 ^ 54 - 1) * 2 ^ 970 * nd.2 ≤ nd.1.natAbs then none
          else if nd.1 ≠ 0 ∧ nd.1.natAbs * 2 ^ 1075 ≤ nd.2 then none
          else some (.val (mkRat nd.1 nd.2))

/-- Model of `parseFloatQueryParam` from `api/v1/image.go`.  The range test
is the code's `num < min || num > max` under IEEE comparison semantics, so
NaN passes it. -/
def parseFloatQueryParam (q : List (String × String)) (lo hi : ℚ) :
    List String → Except ValErr GoFloat
  | [] => .ok (.val 0)
  | key :: keys =>
      let value := getQ q key
      if value ≠ "" then
        match goParseFloat value with
        | none => .error (.floatParse key value)
        | some num =>
            if gfLt num (.val lo) || gfLt (.val hi) num then
              .error (.floatRange key lo hi num)
            else .ok num
      else parseFloatQueryParam q lo hi keys

/-- `maxImageSize` constant from `api/v1/image.go` (5 MiB). -/
def maxImageSize : Nat := 5 * 1024 * 1024

/-- `maxImageHeight` constant from `api/v1/image.go`. -/
def maxImageHeight : Int := 20000

/-- `maxImageWidth` constant from `api/v1/image.go`. -/
def maxImageWidth : Int := 20000

/-- Model of `parseDimensions`: height first (keys `h`, `height`), then width
(keys `w`, `width`), both in [0, 20000]; returns (height, width). -/
def parseDimensions (q : List (String × String)) : Except ValErr (Int × Int) :=
  match parseIntQueryParam q 0 maxImageHeight ["h", "height"] with
  | .error e => .error e
  | .ok height =>
      match parseIntQueryParam q 0 maxImageWidth ["w", "width"] with
      | .error e => .error e
      | .ok width => .ok (height, width)

/-- Model of `parseRotation`: keys `rotate` then `r`, range [0, 360]. -/
def parseRotation (q : List (String × String)) : Except ValErr Int :=
  parseIntQueryParam q 0 360 ["rotate", "r"]

/-- Model of `parseQuality`: keys `q` then `quality`, range [1, 100]. -/
def parseQuality (q : List (String × String)) : Except ValErr Int :=
  parseIntQueryParam q 1 100 ["q", "quality"]

/-- Model of `parseSharpen`: keys `sharpen` then `s`, range [0, 1]. -/
def parseSharpen (q : List (String × String)) : Except ValErr GoFloat :=
  parseFloatQueryParam q 0 1 ["sharpen", "s"]

/-- Model of `parseBlur`: keys `blur` then `b`, range [0, 1]. -/
def parseBlur (q : List (String × String)) : Except ValErr GoFloat :=
  parseFloatQueryParam q 0 1 ["blur", "b"]

/-- Model of Go `strings.ToLower` (character-wise lowercasing). -/
def goToLower (s : String) : String :=
  String.mk (s.toList.map Char.toLower)

/-- Model of `parseImageFormat`: `format` key, falling back to `f`; the value
is lowercased and mapped onto the export enum, empty meaning unspecified. -/
def parseImageFormat (q : List (String × String)) : Except ValErr ImageType :=
  let format0 := getQ q "format"
  let format := if format0 = "" then getQ q "f" else format0
  match goToLower format with
  | "" => .ok .unknown
  | "jpeg" => .ok .jpeg
  | "jpg" => .ok .jpeg
  | "png" => .ok .png
  | "webp" => .ok .webp
  | "heif" => .ok .heif
  | "heic" => .ok .heif
  | "tiff" => .ok .tiff
  | "tif" => .ok .tiff
  | "avif" => .ok .avif
  | "jp2k" => .ok .jp2k
  | "j2k" => .ok .jp2k
  | "gif" => .ok .gif
  | _ => .error (.badFormat format)

/-- Substring occurrence on character lists (model of `strings.Contains`). -/
def containsList (l sub : List Char) : Bool :=
  match l with
  | [] => sub.isEmpty
  | _ :: t => sub.isPrefixOf l || containsList t sub

/-- Model of Go `strings.Contains`. -/
def goStringContains (s sub : String) : Bool :=
  containsList s.toList sub.toList

/-- Model of `convertImageToWebP` from `api/v1/image.go`: WebP content
negotiation fires only when the `webp` query parameter is exactly `auto` and
the Accept header contains `image/webp`. -/
def convertImageToWebP (q : List (String × String)) (accept : String) : Bool :=
  if getQ q "webp" ≠ "auto" then false
  else goStringContains accept "image/webp"

/-- Model of `isSupportedImageFormat`: membership in the content-type
allow-list. -/
def isSupportedImageFormat (contentType : String) : Bool :=
  (["image/jpeg", "image/png", "image/gif", "image/svg+xml", "image/webp",
    "image/heic", "image/heif", "image/tiff", "image/tif", "image/avif",
    "image/jp2", "image/j2k"] : List String).contains contentType

/-- Model of Go `strings.HasPrefix`. -/
def goStartsWith (s pre : String) : Bool :=
  pre.toList.isPrefixOf s.toList

/-- Outcome of Go `net/url`'s `getScheme`: hard error (colon at position 0),
no scheme present, or a scheme followed by the text after the colon. -/
inductive SchemeRes where
  | err
  | noScheme
  | found (scheme : List Char) (rest : List Char)
  deriving DecidableEq, Repr

/-- Character-level model of `net/url.getScheme`: a scheme is an ASCII letter
followed by letters, digits, `+`, `-` or `.`, terminated by `:`; a digit or
punctuation first, or any other character before the colon, means the string
has no scheme; a leading `:` is a parse error. -/
def getSchemeAux (acc : List Char) : List Char → SchemeRes
  | [] => .noScheme
  | c :: rest =>
      if c.isAlpha then getSchemeAux (acc ++ [c]) rest
      else if c.isDigit ∨ c = '+' ∨ c = '-' ∨ c = '.' then
        if acc = [] then .noScheme else getSchemeAux (acc ++ [c]) rest
      else if c = ':' then
        if acc = [] then .err else .found acc rest
      else .noScheme

/-- The slice of a parsed URL the repository's `normalizeURL` observes. -/
structure GoURL where
  scheme : String
  rest : String
  deriving DecidableEq, Repr

/-- Modelled from `net/url.Parse`, keeping only what `normalizeURL` in
`api/v1/image.go` observes: the extracted scheme (lowercased, as `Parse`
does), failure on ASCII control characters or an empty scheme before `:`,
and treating `URL.String()` as returning the parsed text unchanged (the
round-trip holds for every URL exercised by the claims). -/
def goURLParse (s : String) : Option GoURL :=
  if s.toList.any (fun c => c.toNat < 32 ∨ c.toNat = 127) then none
  else
    match getSchemeAux [] s.toList with
    | .err => none
    | .noScheme => some ⟨"", s⟩
    | .found sch rest => some ⟨String.mk (sch.map Char.toLower), String.mk rest⟩

/-- Structured form of the two failure modes of `normalizeURL`. -/
inductive URLErr where
  | parseFailed
  | unsupportedScheme (scheme : String)
  deriving DecidableEq, Repr

/-- Model of `normalizeURL` from `api/v1/image.go`: prepend `https://` unless
the input starts with the literal `http://` or `https://`, parse, and reject
a parsed scheme other than `http`/`https`. -/
def normalizeURL (inputURL : String) : Except URLErr String :=
  let u :=
    if goStartsWith inputURL "http://" || goStartsWith inputURL "https://" then inputURL
    else "https://" ++ inputURL
  match goURLParse u with
  | none => .error .parseFailed
  | some parsed =>
      if parsed.scheme ≠ "http" ∧ parsed.scheme ≠ "https" then
        .error (.unsupportedScheme parsed.scheme)
      else .ok u

/-- One `Read` call of `countingReader` from `api/v1/image.go`, tracking only
what the struct tracks: the running byte count, and whether this call returns
the size-exceeded error.  `n` is the number of bytes the wrapped reader just
delivered; the count is incremented before the ceiling check. -/
def crRead (maxSize bytesRead n : Nat) : Nat × Bool :=
  (bytesRead + n, decide (bytesRead + n > maxSize))

/-- Model of `io.Copy(w, countingReader)` on the fast path: the upstream body
arrives as `chunks`; each chunk is read through the counting reader and — as
`io.Copy` does when `Read` returns data together with an error — written to
the response before the error stops the copy.  Returns the bytes written and
whether the copy ended with the size-limit error. -/
def ioCopy (maxSize bytesRead : Nat) : List (List Nat) → List Nat × Bool
  | [] => ([], false)
  | c :: rest =>
      let r := crRead maxSize bytesRead c.length
      if r.2 then (c, true)
      else
        let w := ioCopy maxSize r.1 rest
        (c ++ w.1, w.2)

/-- Model of `resizeImage` from `api/v1/image.go`, acting on the image's
width and page height (exact rational arithmetic; `width`/`height` are the
validated request parameters).  Returns the new width, the new page height,
and whether a resize was actually applied.  `vips.Resize scale` multiplies
both axes by `scale`; `ResizeWithVScale h v` multiplies the axes
independently. -/
def resizeImage (imgWidth pageHeight : ℚ) (width height : Int) (upscale : Bool) :
    ℚ × ℚ × Bool :=
  if width = 0 ∧ height = 0 then (imgWidth, pageHeight, false)
  else
    let scale : ℚ :=
      if width = 0 ∧ height ≠ 0 then (height : ℚ) / pageHeight
      else if height = 0 ∧ width ≠ 0 then (width : ℚ) / imgWidth
      else -1
    if (upscale = true ∨ scale ≤ 1) ∧ scale ≠ -1 then
      (imgWidth * scale, pageHeight * scale, true)
    else
      let hScale : ℚ := (width : ℚ) / imgWidth
      let vScale : ℚ := (height : ℚ) / pageHeight
      if upscale = true ∨ (hScale ≤ 1 ∧ vScale ≤ 1) then
        (imgWidth * hScale, pageHeight * vScale, true)
      else (imgWidth, pageHeight, false)

/-- Resolution of `targetFormat` inside `ImageGet`: an `image/gif` source
forces the target to GIF (line 161), and the WebP-negotiation flag then
overrides whatever the target is (lines 219-221). -/
def resolveTargetFormat (explicitFmt : ImageType) (ctIsGif : Bool)
    (webpOverride : Bool) : ImageType :=
  let t := if ctIsGif then ImageType.gif else explicitFmt
  if webpOverride then ImageType.webp else t

/-- Format actually encoded by `ExportImage`: the passed target format, or
the image's own native format when the target is `unknown` (the `default`
branch calls `ExportNative`). -/
def exportFormat (native target : ImageType) : ImageType :=
  match target with
  | .unknown => native
  | t => t

/-- Output format of a successful transform-path request, composing the
`targetFormat` resolution in `ImageGet` with the `ExportImage` dispatch. -/
def resolvedOutputFormat (explicitFmt : ImageType) (ctIsGif : Bool)
    (webpOverride : Bool) (native : ImageType) : ImageType :=
  exportFormat native (resolveTargetFormat explicitFmt ctIsGif webpOverride)

/-- An inbound request as `ImageGet` sees it: the `{url}` path slug, the
query parameters in order (the raw query string is nonempty exactly when
this list is), and the `Accept` header. -/
structure Request where
  urlSlug : String
  query : List (String × String)
  accept : String
  deriving Repr

/-- The decoded image handle, reduced to the attributes `ImageGet` reads. -/
structure VImage where
  width : ℚ
  pageHeight : ℚ
  format : ImageType
  hasAlpha : Bool
  deriving DecidableEq, Repr

/-- Behaviour of the upstream origin for one fetch: whether `client.Do`
fails, the status code, the declared content type, the body as the chunk
sequence successive `Read` calls deliver, and the codec's verdict on the
full body (`none` when vips cannot decode it). -/
structure Upstream where
  fetchFails : Bool
  status : Nat
  contentType : String
  chunks : List (List Nat)
  image : Option VImage
  deriving Repr

/-- Every distinct `http.Error` call site in `ImageGet`, carrying the data
interpolated into its message. -/
inductive HandlerErr where
  | urlError (e : URLErr)
  | valError (e : ValErr)
  | fetchFailed
  | upstreamStatus (code : Nat)
  | unsupportedFormat
  | decodeFailed
  deriving DecidableEq, Repr

/-- Observable response of the handler.  `fastPath` records the Content-Type
header it sets and the bytes `io.Copy` wrote (`sizeLimitHit` when the copy
ended in the counting reader's error; the handler then additionally attempts
a 500 after the partial write).  `transformed` records the Content-Type
header set by the handler on that path (the code sets none), the resolved
output format of the encoded bytes, the validated quality, and whether the
decode loaded all frames (`NumPages = -1`). -/
inductive Outcome where
  | errored (status : Nat) (err : HandlerErr)
  | fastPath (contentTypeHeader : String) (written : List Nat) (sizeLimitHit : Bool)
  | transformed (contentTypeHeader : Option String) (fmt : ImageType)
      (quality : Int) (allFrames : Bool)
  deriving DecidableEq, Repr

/-- Handler result: whether the outbound fetch was issued, and the
response. -/
structure HandlerResult where
  didFetch : Bool
  outcome : Outcome
  deriving DecidableEq, Repr

/-- The validated request descriptor built by lines 49-94 of `ImageGet`. -/
structure Validated where
  height : Int
  width : Int
  rotation : Int
  quality : Int
  targetFormat : ImageType
  sharpen : GoFloat
  blur : GoFloat
  upscale : Bool
  strip : Bool
  webpOverride : Bool
  deriving DecidableEq, Repr

/-- Validation phase of `ImageGet` (everything before the outbound fetch),
in source order: URL normalization, dimensions, rotation, quality, format,
sharpen, blur, then the boolean flags and WebP negotiation. -/
def validateRequest (req : Request) : Except HandlerErr Validated :=
  match normalizeURL req.urlSlug with
  | .error e => .error (.urlError e)
  | .ok _ =>
  match parseDimensions req.query with
  | .error e => .error (.valError e)
  | .ok hw =>
  match parseRotation req.query with
  | .error e => .error (.valError e)
  | .ok rotation =>
  match parseQuality req.query with
  | .error e => .error (.valError e)
  | .ok quality =>
  match parseImageFormat req.query with
  | .error e => .error (.valError e)
  | .ok targetFormat =>
  match parseSharpen req.query with
  | .error e => .error (.valError e)
  | .ok sharpen =>
  match parseBlur req.query with
  | .error e => .error (.valError e)
  | .ok blur =>
      .ok { height := hw.1, width := hw.2, rotation, quality, targetFormat,
            sharpen, blur,
            upscale := getQ req.query "up" == "true",
            strip := getQ req.query "strip" == "true",
            webpOverride := convertImageToWebP req.query req.accept }

/-- Post-fetch phase of `ImageGet` (lines 104-228): upstream status check
(`!= 200`), content-type gate, fast path (`len(RawQuery) > 0` is modelled as
nonemptiness of the parameter list), and the transform path, whose decode
fails exactly when the body exceeds the size ceiling or the codec rejects
it.  The transform steps (rotate, blur, resize, sharpen, strip) operate on
the decoded handle and do not alter the observables recorded here. -/
def fetchStage (req : Request) (up : Upstream) (v : Validated) : HandlerResult :=
  if up.fetchFails then ⟨true, .errored 500 .fetchFailed⟩
  else if up.status ≠ 200 then ⟨true, .errored up.status (.upstreamStatus up.status)⟩
  else if ¬ isSupportedImageFormat up.contentType then
    ⟨true, .errored 400 .unsupportedFormat⟩
  else if req.query.isEmpty ∨ up.contentType = "image/svg+xml" then
    let r := ioCopy maxImageSize 0 up.chunks
    ⟨true, .fastPath up.contentType r.1 r.2⟩
  else
    let totalLen := (up.chunks.map List.length).sum
    if up.contentType = "image/gif" then
      if totalLen > maxImageSize then ⟨true, .errored 400 .decodeFailed⟩
      else
        match up.image with
        | none => ⟨true, .errored 400 .decodeFailed⟩
        | some img =>
            ⟨true, .transformed none
              (resolvedOutputFormat v.targetFormat true v.webpOverride img.format)
              v.quality true⟩
    else
      if totalLen > maxImageSize then ⟨true, .errored 400 .decodeFailed⟩
      else
        match up.image with
        | none => ⟨true, .errored 400 .decodeFailed⟩
        | some img =>
            ⟨true, .transformed none
              (resolvedOutputFormat v.targetFormat false v.webpOverride img.format)
              v.quality false⟩

/-- Model of the handler `ImageGet` from `api/v1/image.go`: validate, then
fetch and process.  Every validation failure answers 400 before any outbound
request is issued. -/
def ImageGet (req : Request) (up : Upstream) : HandlerResult :=
  match validateRequest req with
  | .error e => ⟨false, .errored 400 e⟩
  | .ok v => fetchStage req up v

end ImageGem

deriving instance DecidableEq for Except

namespace ImageGem

/-- Single-axis resize behaviour of `resizeImage` with only the height
constrained. -/
theorem resize_single_h (imgWidth pageHeight : ℚ) (height : Int) (up : Bool)
    (hh : 0 < pageHeight) (hpos : 0 < height) :
    ((resizeImage imgWidth pageHeight 0 height up).2.2 =
        (up || decide ((height : ℚ) / pageHeight ≤ 1))) ∧
    (up = false → 1 < (height : ℚ) / pageHeight →
        resizeImage imgWidth pageHeight 0 height up = (imgWidth, pageHeight, false)) ∧
    ((up = true ∨ (height : ℚ) / pageHeight ≤ 1) →
        (resizeImage imgWidth pageHeight 0 height up).2.1 = (height : ℚ)) := by
  have hh0 : pageHeight ≠ 0 := ne_of_gt hh
  have hne : height ≠ 0 := by omega
  have hsc : (0 : ℚ) < (height : ℚ) / pageHeight := by
    apply div_pos _ hh
    exact_mod_cast hpos
  have hscne : (height : ℚ) / pageHeight ≠ -1 := by linarith
  have hcast : pageHeight * ((height : ℚ) / pageHeight) = (height : ℚ) := by
    rw [mul_comm]
    exact div_mul_cancel₀ _ hh0
  simp only [resizeImage]
  norm_num [hne]
  cases up with
  | true => simp [hscne, hcast]
  | false =>
    by_cases hle : (height : ℚ) / pageHeight ≤ 1
    · simp [hle, hscne, hcast]
    · simp [hle, hscne]

/-- Single-axis resize behaviour of `resizeImage` with only the width
constrained. -/
theorem resize_single_w (imgWidth pageHeight : ℚ) (width : Int) (up : Bool)
    (hw : 0 < imgWidth) (hpos : 0 < width) :
    ((resizeImage imgWidth pageHeight width 0 up).2.2 =
        (up || decide ((width : ℚ) / imgWidth ≤ 1))) ∧
    (up = false → 1 < (width : ℚ) / imgWidth →
        resizeImage imgWidth pageHeight width 0 up = (imgWidth, pageHeight, false)) ∧
    ((up = true ∨ (width : ℚ) / imgWidth ≤ 1) →
        (resizeImage imgWidth pageHeight width 0 up).1 = (width : ℚ)) := by
  have hw0 : imgWidth ≠ 0 := ne_of_gt hw
  have hne : width ≠ 0 := by omega
  have hsc : (0 : ℚ) < (width : ℚ) / imgWidth := by
    apply div_pos _ hw
    exact_mod_cast hpos
  have hscne : (width : ℚ) / imgWidth ≠ -1 := by linarith
  have hcast : imgWidth * ((width : ℚ) / imgWidth) = (width : ℚ) := by
    rw [mul_comm]
    exact div_mul_cancel₀ _ hw0
  simp only [resizeImage]
  norm_num [hne]
  cases up with
  | true => simp [hscne, hcast]
  | false =>
    by_cases hle : (width : ℚ) / imgWidth ≤ 1
    · simp [hle, hscne, hcast]
    · simp [hle, hscne]

/-- Two-axis resize behaviour of `resizeImage`. -/
theorem resize_both (imgWidth pageHeight : ℚ) (width height : Int) (up : Bool)
    (hw : 0 < imgWidth) (hh : 0 < pageHeight) (hwne : width ≠ 0) (hhne : height ≠ 0) :
    ((resizeImage imgWidth pageHeight width height up).2.2 =
        (up || (decide ((width : ℚ) / imgWidth ≤ 1) &&
                decide ((height : ℚ) / pageHeight ≤ 1)))) ∧
    ((up = true ∨ ((width : ℚ) / imgWidth ≤ 1 ∧ (height : ℚ) / pageHeight ≤ 1)) →
        resizeImage imgWidth pageHeight width height up =
          ((width : ℚ), (height : ℚ), true)) ∧
    (up = false → ¬((width : ℚ) / imgWidth ≤ 1 ∧ (height : ℚ) / pageHeight ≤ 1) →
        resizeImage imgWidth pageHeight width height up = (imgWidth, pageHeight, false)) := by
  have hw0 : imgWidth ≠ 0 := ne_of_gt hw
  have hh0 : pageHeight ≠ 0 := ne_of_gt hh
  have hcw : imgWidth * ((width : ℚ) / imgWidth) = (width : ℚ) := by
    rw [mul_comm]
    exact div_mul_cancel₀ _ hw0
  have hch : pageHeight * ((height : ℚ) / pageHeight) = (height : ℚ) := by
    rw [mul_comm]
    exact div_mul_cancel₀ _ hh0
  simp only [resizeImage]
  norm_num [hwne, hhne]
  cases up with
  | true => simp [hcw, hch]
  | false =>
    by_cases h1 : (width : ℚ) / imgWidth ≤ 1 <;>
      by_cases h2 : (height : ℚ) / pageHeight ≤ 1 <;>
        simp [h1, h2, hcw, hch]

/-- C2: resize policy of `resizeImage`.  For a request constraining exactly
one axis, the scale factor comes from that axis against the current size on
that axis (page height for the vertical axis) and the resize is applied iff
`up=true` or the factor is ≤ 1; with `up` absent and factor > 1 the image
passes through with unchanged dimensions, and whenever the resize is applied
the constrained axis exactly matches the requested target.  For a request
constraining both axes, independent horizontal and vertical factors are
computed and a non-uniform resize is applied iff `up=true` or both factors
are ≤ 1; otherwise the image passes through unresized. -/
theorem C2_resize_policy (imgWidth pageHeight : ℚ) (width height : Int) (up : Bool)
    (hw : 0 < imgWidth) (hh : 0 < pageHeight) :
    (width = 0 → 0 < height →
      ((resizeImage imgWidth pageHeight width height up).2.2 =
          (up || decide ((height : ℚ) / pageHeight ≤ 1))) ∧
      (up = false → 1 < (height : ℚ) / pageHeight →
          resizeImage imgWidth pageHeight width height up = (imgWidth, pageHeight, false)) ∧
      ((up = true ∨ (height : ℚ) / pageHeight ≤ 1) →
          (resizeImage imgWidth pageHeight width height up).2.1 = (height : ℚ))) ∧
    (height = 0 → 0 < width →
      ((resizeImage imgWidth pageHeight width height up).2.2 =
          (up || decide ((width : ℚ) / imgWidth ≤ 1))) ∧
      (up = false → 1 < (width : ℚ) / imgWidth →
          resizeImage imgWidth pageHeight width height up = (imgWidth, pageHeight, false)) ∧
      ((up = true ∨ (width : ℚ) / imgWidth ≤ 1) →
          (resizeImage imgWidth pageHeight width height up).1 = (width : ℚ))) ∧
    (width ≠ 0 → height ≠ 0 →
      ((resizeImage imgWidth pageHeight width height up).2.2 =
          (up || (decide ((width : ℚ) / imgWidth ≤ 1) &&
                  decide ((height : ℚ) / pageHeight ≤ 1)))) ∧
      ((up = true ∨ ((width : ℚ) / imgWidth ≤ 1 ∧ (height : ℚ) / pageHeight ≤ 1)) →
          resizeImage imgWidth pageHeight width height up =
            ((width : ℚ), (height : ℚ), true)) ∧
      (up = false → ¬((width : ℚ) / imgWidth ≤ 1 ∧ (height : ℚ) / pageHeight ≤ 1) →
          resizeImage imgWidth pageHeight width height up = (imgWidth, pageHeight, false))) := by
  refine ⟨?_, ?_, ?_⟩
  · intro h0 hpos
    subst h0
    exact resize_single_h imgWidth pageHeight height up hh hpos
  · intro h0 hpos
    subst h0
    exact resize_single_w imgWidth pageHeight width up hw hpos
  · intro hwne hhne
    exact resize_both imgWidth pageHeight width height up hw hh hwne hhne

/-- Witness for C2 at concrete inputs: a 1000×800 image, height-only target
400 without upscaling is resized and the page height exactly matches, while
width-only target 2000 without upscaling passes through unchanged. -/
theorem C2_resize_policy_witness :
    (resizeImage 1000 800 0 400 false).2.1 = 400 ∧
    resizeImage 1000 800 2000 0 false = (1000, 800, false) := by
  constructor
  · exact ((C2_resize_policy 1000 800 0 400 false (by norm_num) (by norm_num)).1
      rfl (by norm_num)).2.2 (Or.inr (by norm_num))
  · exact ((C2_resize_policy 1000 800 2000 0 false (by norm_num) (by norm_num)).2.1
      rfl (by norm_num)).2.1 rfl (by norm_num)

end ImageGem
namespace ImageGem

/-- Result of parsing one present key in `parseIntQueryParam` (the body of
the loop's nonempty-value branch). -/
def intOutcome (key : String) (lo hi : Int) (v : String) : Except ValErr Int :=
  match goAtoi v with
  | none => .error (.intParse key v)
  | some num => if num < lo ∨ num > hi then .error (.intRange key lo hi num) else .ok num

/-- Result of parsing one present key in `parseFloatQueryParam`. -/
def floatOutcome (key : String) (lo hi : ℚ) (v : String) : Except ValErr GoFloat :=
  match goParseFloat v with
  | none => .error (.floatParse key v)
  | some num =>
      if gfLt num (.val lo) || gfLt (.val hi) num then
        .error (.floatRange key lo hi num)
      else .ok num

theorem parseInt_firstKey (q : List (String × String)) (lo hi : Int) (k : String)
    (keys : List String) (v : String) (hv : getQ q k = v) (hne : v ≠ "") :
    parseIntQueryParam q lo hi (k :: keys) = intOutcome k lo hi v := by
  unfold parseIntQueryParam intOutcome
  rw [hv]
  simp [hne]

theorem parseInt_skipKey (q : List (String × String)) (lo hi : Int) (k : String)
    (keys : List String) (hv : getQ q k = "") :
    parseIntQueryParam q lo hi (k :: keys) = parseIntQueryParam q lo hi keys := by
  conv_lhs => rw [parseIntQueryParam]
  rw [hv]
  simp

theorem parseFloat_firstKey (q : List (String × String)) (lo hi : ℚ) (k : String)
    (keys : List String) (v : String) (hv : getQ q k = v) (hne : v ≠ "") :
    parseFloatQueryParam q lo hi (k :: keys) = floatOutcome k lo hi v := by
  unfold parseFloatQueryParam floatOutcome
  rw [hv]
  simp [hne]

theorem parseFloat_skipKey (q : List (String × String)) (lo hi : ℚ) (k : String)
    (keys : List String) (hv : getQ q k = "") :
    parseFloatQueryParam q lo hi (k :: keys) = parseFloatQueryParam q lo hi keys := by
  conv_lhs => rw [parseFloatQueryParam]
  rw [hv]
  simp

end ImageGem
namespace ImageGem

/-- C7 counterexample: the claim says the `r` alias beats `rotate`, but with
both present (`r=10`, `rotate=20`) the code parses 20 — the `rotate` key,
listed first in `parseRotation`, wins. -/
theorem C7_cex :
    parseRotation [("r", "10"), ("rotate", "20")] = .ok 20 ∧ (20 : Int) ≠ 10 := by
  decide

/-- C7 amended: for every logical parameter with alias keys, the alias the
code lists first wins and the other is consulted only when the first is
absent: `h` before `height`, `w` before `width`, `rotate` before `r`, `q`
before `quality`, `sharpen` before `s`, `blur` before `b`. -/
theorem C7_amended (q : List (String × String)) (v : String) (hne : v ≠ "") :
    (getQ q "h" = v → parseIntQueryParam q 0 maxImageHeight ["h", "height"] =
        intOutcome "h" 0 20000 v) ∧
    (getQ q "h" = "" → getQ q "height" = v →
        parseIntQueryParam q 0 maxImageHeight ["h", "height"] =
          intOutcome "height" 0 20000 v) ∧
    (getQ q "w" = v → parseIntQueryParam q 0 maxImageWidth ["w", "width"] =
        intOutcome "w" 0 20000 v) ∧
    (getQ q "w" = "" → getQ q "width" = v →
        parseIntQueryParam q 0 maxImageWidth ["w", "width"] =
          intOutcome "width" 0 20000 v) ∧
    (getQ q "rotate" = v → parseRotation q = intOutcome "rotate" 0 360 v) ∧
    (getQ q "rotate" = "" → getQ q "r" = v → parseRotation q = intOutcome "r" 0 360 v) ∧
    (getQ q "q" = v → parseQuality q = intOutcome "q" 1 100 v) ∧
    (getQ q "q" = "" → getQ q "quality" = v → parseQuality q = intOutcome "quality" 1 100 v) ∧
    (getQ q "sharpen" = v → parseSharpen q = floatOutcome "sharpen" 0 1 v) ∧
    (getQ q "sharpen" = "" → getQ q "s" = v → parseSharpen q = floatOutcome "s" 0 1 v) ∧
    (getQ q "blur" = v → parseBlur q = floatOutcome "blur" 0 1 v) ∧
    (getQ q "blur" = "" → getQ q "b" = v → parseBlur q = floatOutcome "b" 0 1 v) := by
  refine ⟨?_, ?_, ?_, ?_, ?_, ?_, ?_, ?_, ?_, ?_, ?_, ?_⟩
  · intro h
    exact parseInt_firstKey q 0 maxImageHeight "h" ["height"] v h hne
  · intro h0 h
    rw [parseInt_skipKey q 0 maxImageHeight "h" ["height"] h0]
    exact parseInt_firstKey q 0 maxImageHeight "height" [] v h hne
  · intro h
    exact parseInt_firstKey q 0 maxImageWidth "w" ["width"] v h hne
  · intro h0 h
    rw [parseInt_skipKey q 0 maxImageWidth "w" ["width"] h0]
    exact parseInt_firstKey q 0 maxImageWidth "width" [] v h hne
  · intro h
    exact parseInt_firstKey q 0 360 "rotate" ["r"] v h hne
  · intro h0 h
    rw [parseRotation, parseInt_skipKey q 0 360 "rotate" ["r"] h0]
    exact parseInt_firstKey q 0 360 "r" [] v h hne
  · intro h
    exact parseInt_firstKey q 1 100 "q" ["quality"] v h hne
  · intro h0 h
    rw [parseQuality, parseInt_skipKey q 1 100 "q" ["quality"] h0]
    exact parseInt_firstKey q 1 100 "quality" [] v h hne
  · intro h
    exact parseFloat_firstKey q 0 1 "sharpen" ["s"] v h hne
  · intro h0 h
    rw [parseSharpen, parseFloat_skipKey q 0 1 "sharpen" ["s"] h0]
    exact parseFloat_firstKey q 0 1 "s" [] v h hne
  · intro h
    exact parseFloat_firstKey q 0 1 "blur" ["b"] v h hne
  · intro h0 h
    rw [parseBlur, parseFloat_skipKey q 0 1 "blur" ["b"] h0]
    exact parseFloat_firstKey q 0 1 "b" [] v h hne

/-- Witness for C7's amended theorem at a concrete query with both rotation
aliases present. -/
theorem C7_amended_witness :
    parseRotation [("r", "10"), ("rotate", "20")] = intOutcome "rotate" 0 360 "20" := by
  exact (C7_amended [("r", "10"), ("rotate", "20")] "20" (by decide)).2.2.2.2.1 (by decide)

end ImageGem
namespace ImageGem

/-- C1 counterexample: the claim says `webp=force` unconditionally yields
WebP output, but `convertImageToWebP` recognises only `webp=auto`; with
`webp=force&format=png` on a JPEG source (even with an Accept header that
advertises WebP) the output format is PNG, not WebP. -/
theorem C1_cex :
    ImageGet ⟨"example.com/cat.jpg", [("webp", "force"), ("format", "png")], "image/webp"⟩
        ⟨false, 200, "image/jpeg", [[1, 2, 3]], some ⟨1000, 800, .jpeg, false⟩⟩ =
      ⟨true, .transformed none .png 0 false⟩ ∧
    ImageType.png ≠ ImageType.webp := by
  decide

/-- C1 amended: WebP negotiation fires iff the `webp` parameter is exactly
`auto` and the Accept header contains `image/webp` (a `force` mode does not
exist in the code and behaves as off).  When it fires the output format is
WebP, overriding everything; otherwise an `image/gif` source forces GIF
(overriding any explicit format); otherwise an explicit format wins;
otherwise the source's native format is used.  The final conjunct ties this
resolution to every successful transform-path response of `ImageGet`. -/
theorem C1_amended (q : List (String × String)) (accept : String)
    (explicitFmt : ImageType) (ctIsGif : Bool) (native : ImageType) :
    (convertImageToWebP q accept = true ↔
        (getQ q "webp" = "auto" ∧ goStringContains accept "image/webp" = true)) ∧
    (convertImageToWebP q accept = true →
        resolvedOutputFormat explicitFmt ctIsGif (convertImageToWebP q accept) native =
          .webp) ∧
    (convertImageToWebP q accept = false → ctIsGif = true →
        resolvedOutputFormat explicitFmt ctIsGif (convertImageToWebP q accept) native =
          .gif) ∧
    (convertImageToWebP q accept = false → ctIsGif = false → explicitFmt ≠ .unknown →
        resolvedOutputFormat explicitFmt ctIsGif (convertImageToWebP q accept) native =
          explicitFmt) ∧
    (convertImageToWebP q accept = false → ctIsGif = false →
        resolvedOutputFormat .unknown ctIsGif (convertImageToWebP q accept) native =
          native) ∧
    (∀ (req : Request) (up : Upstream) (v : Validated) (img : VImage),
        validateRequest req = .ok v → up.image = some img →
        ∀ ct fmt qual af, (ImageGet req up).outcome = .transformed ct fmt qual af →
          (up.contentType = "image/gif" →
              fmt = resolvedOutputFormat v.targetFormat true v.webpOverride img.format) ∧
          (up.contentType ≠ "image/gif" →
              fmt = resolvedOutputFormat v.targetFormat false v.webpOverride img.format)) := by
  refine ⟨?_, ?_, ?_, ?_, ?_, ?_⟩
  · unfold convertImageToWebP
    by_cases h : getQ q "webp" = "auto"
    · simp [h]
    · simp [h]
  · intro h
    rw [h]
    cases ctIsGif <;> rfl
  · intro h hg
    rw [h, hg]
    rfl
  · intro h hg hne
    rw [h, hg]
    unfold resolvedOutputFormat resolveTargetFormat exportFormat
    cases explicitFmt <;> simp_all
  · intro h hg
    rw [h, hg]
    rfl
  · intro req up v img hval himg ct fmt qual af hout
    simp only [ImageGet, hval, fetchStage, himg] at hout
    split_ifs at hout with h1 h2 h3 h4 h5
    · simp only [Outcome.transformed.injEq] at hout
      exact ⟨fun _ => hout.2.1.symm, fun hcontr => absurd h5 hcontr⟩
    · simp only [Outcome.transformed.injEq] at hout
      exact ⟨fun hcontr => absurd hcontr h5, fun _ => hout.2.1.symm⟩

/-- Witness for C1's amended theorem: `webp=auto` with an accepting client
resolves to WebP over an explicit PNG request. -/
theorem C1_amended_witness :
    resolvedOutputFormat ImageType.png false
        (convertImageToWebP [("webp", "auto")] "image/webp,*/*") ImageType.jpeg =
      ImageType.webp := by
  exact (C1_amended [("webp", "auto")] "image/webp,*/*" .png false .jpeg).2.1 (by decide)

end ImageGem
namespace ImageGem

/-- C6 counterexample: a 204 upstream response is 2xx, yet the handler
terminates the request and echoes 204 instead of continuing past the status
check — the code tests `!= 200`, not non-2xx. -/
theorem C6_cex :
    (ImageGet ⟨"example.com/a.jpg", [("h", "10")], ""⟩
        ⟨false, 204, "image/jpeg", [[1]], some ⟨100, 100, .jpeg, false⟩⟩).outcome =
      .errored 204 (.upstreamStatus 204) ∧
    (200 ≤ 204 ∧ 204 < 300) ∧ (204 : Nat) ≠ 200 := by
  decide

/-- C6 amended: for every upstream response with status other than exactly
200 (including other 2xx codes) the handler responds with that same status
code and a message carrying it, never masking it as 500; only a 200 response
continues past the status check. -/
theorem C6_amended (req : Request) (up : Upstream) (v : Validated)
    (hval : validateRequest req = .ok v) (hff : up.fetchFails = false) :
    (up.status ≠ 200 →
        (ImageGet req up).outcome = .errored up.status (.upstreamStatus up.status)) ∧
    (up.status = 200 →
        ∀ c, (ImageGet req up).outcome ≠ .errored c (.upstreamStatus c)) := by
  constructor
  · intro hst
    simp only [ImageGet, hval, fetchStage, hff]
    simp [hst]
  · intro hst c
    simp only [ImageGet, hval, fetchStage, hff, hst]
    split_ifs <;> cases himg : up.image <;> simp_all

/-- Witness for C6's amended theorem at upstream status 418. -/
theorem C6_amended_witness :
    (ImageGet ⟨"example.com/a.jpg", [("h", "10")], ""⟩
        ⟨false, 418, "image/jpeg", [[1]], some ⟨100, 100, .jpeg, false⟩⟩).outcome =
      .errored 418 (.upstreamStatus 418) := by
  exact (C6_amended ⟨"example.com/a.jpg", [("h", "10")], ""⟩
    ⟨false, 418, "image/jpeg", [[1]], some ⟨100, 100, .jpeg, false⟩⟩
    ⟨10, 0, 0, 0, .unknown, .val 0, .val 0, false, false, false⟩ (by decide) rfl).1 (by decide)

end ImageGem
namespace ImageGem

/-- C8 counterexample: a successful transform-path request (`format=png` on
a JPEG source) produces a response on which the handler has set no
Content-Type header at all, rather than `image/png`. -/
theorem C8_cex :
    (ImageGet ⟨"example.com/cat.jpg", [("format", "png")], ""⟩
        ⟨false, 200, "image/jpeg", [[1, 2, 3]], some ⟨1000, 800, .jpeg, false⟩⟩).outcome =
      .transformed none .png 0 false ∧
    (none : Option String) ≠ some "image/png" := by
  decide

/-- C8 amended: on the fast path the original upstream content type is
passed through as the Content-Type header; on the transform path the handler
sets no Content-Type header (the surrounding HTTP stack may sniff one from
the encoded bytes). -/
theorem C8_amended (req : Request) (up : Upstream) :
    (∀ ct w s, (ImageGet req up).outcome = .fastPath ct w s → ct = up.contentType) ∧
    (∀ ct f qual af, (ImageGet req up).outcome = .transformed ct f qual af → ct = none) := by
  constructor
  · intro ct w s hout
    cases hval : validateRequest req with
    | error e => simp [ImageGet, hval] at hout
    | ok v =>
      simp only [ImageGet, hval, fetchStage] at hout
      split_ifs at hout <;> cases himg : up.image <;> simp_all
  · intro ct f qual af hout
    cases hval : validateRequest req with
    | error e => simp [ImageGet, hval] at hout
    | ok v =>
      simp only [ImageGet, hval, fetchStage] at hout
      split_ifs at hout <;> cases himg : up.image <;> simp_all

/-- Witness for C8's amended theorem on a concrete SVG fast-path request and
a concrete PNG transform request. -/
theorem C8_amended_witness :
    ("image/svg+xml" : String) = "image/svg+xml" ∧ (none : Option String) = none := by
  constructor
  · exact (C8_amended ⟨"example.com/a.svg", [("h", "10")], ""⟩
      ⟨false, 200, "image/svg+xml", [[1]], none⟩).1 "image/svg+xml" [1] false (by decide)
  · exact (C8_amended ⟨"example.com/cat.jpg", [("format", "png")], ""⟩
      ⟨false, 200, "image/jpeg", [[1, 2, 3]], some ⟨1000, 800, .jpeg, false⟩⟩).2
      none .png 0 false (by decide)

/-- C10: a transform-path request whose upstream content type is
`image/gif` is decoded as a full multi-frame sequence (`allFrames = true`,
from `NumPages = -1`) and its target format is forcibly set to GIF,
silently overriding any explicit `format`/`f` parameter; only WebP content
negotiation can change the output away from GIF. -/
theorem C10_gif_override (req : Request) (up : Upstream) (v : Validated) (img : VImage)
    (hval : validateRequest req = .ok v) (hff : up.fetchFails = false)
    (hst : up.status = 200) (hct : up.contentType = "image/gif")
    (hq : req.query ≠ [])
    (hsz : (up.chunks.map List.length).sum ≤ maxImageSize)
    (himg : up.image = some img) :
    (ImageGet req up).outcome =
      .transformed none (if v.webpOverride then ImageType.webp else ImageType.gif)
        v.quality true ∧
    (∀ explicitFmt native,
        resolvedOutputFormat explicitFmt true v.webpOverride native =
          (if v.webpOverride then ImageType.webp else ImageType.gif)) := by
  constructor
  · simp only [ImageGet, hval, fetchStage, hff, hst, hct, himg]
    have hsup : isSupportedImageFormat "image/gif" = true := by decide
    have hsvg : ("image/gif" : String) ≠ "image/svg+xml" := by decide
    have hnosize : ¬ (up.chunks.map List.length).sum > maxImageSize := by omega
    simp [hsup, hsvg, hq, hnosize, resolvedOutputFormat, resolveTargetFormat, exportFormat]
    cases hw : v.webpOverride <;> simp
  · intro explicitFmt native
    cases hw : v.webpOverride <;>
      simp [resolvedOutputFormat, resolveTargetFormat, exportFormat]

/-- Witness for C10: a GIF source with an explicit `format=png` request
still produces GIF output with all frames decoded. -/
theorem C10_gif_override_witness :
    (ImageGet ⟨"example.com/a.gif", [("format", "png")], ""⟩
        ⟨false, 200, "image/gif", [[1, 2, 3]], some ⟨100, 100, .gif, false⟩⟩).outcome =
      .transformed none .gif 0 true := by
  have h := (C10_gif_override ⟨"example.com/a.gif", [("format", "png")], ""⟩
    ⟨false, 200, "image/gif", [[1, 2, 3]], some ⟨100, 100, .gif, false⟩⟩
    ⟨0, 0, 0, 0, .png, .val 0, .val 0, false, false, false⟩ ⟨100, 100, .gif, false⟩
    (by decide) rfl rfl rfl (by decide) (by decide) rfl).1
  simpa using h

end ImageGem
namespace ImageGem

/-- Once the running byte count would cross the ceiling, the copy loop stops
with the size error, but the crossing chunk has already been written: the
output is nonempty whenever the body exceeds the ceiling. -/
theorem ioCopy_overflow (chunks : List (List Nat)) :
    ∀ bytesRead, bytesRead ≤ maxImageSize →
      bytesRead + (chunks.map List.length).sum > maxImageSize →
      (ioCopy maxImageSize bytesRead chunks).2 = true ∧
      (ioCopy maxImageSize bytesRead chunks).1 ≠ [] := by
  induction chunks with
  | nil =>
    intro br h1 h2
    exfalso
    simp at h2
    omega
  | cons c rest ih =>
    intro br h1 h2
    by_cases hc : br + c.length > maxImageSize
    · have hcne : c ≠ [] := by
        intro hnil
        rw [hnil] at hc
        simp at hc
        omega
      simp only [ioCopy, crRead]
      simp [hc]
      exact hcne
    · push_neg at hc
      have hrec := ih (br + c.length) hc (by
        simp only [List.map_cons, List.sum_cons] at h2 ⊢
        omega)
      simp only [ioCopy, crRead]
      simp [show ¬ br + c.length > maxImageSize from by omega, List.append_eq_nil,
        hrec.1, hrec.2]

/-- The copy loop is faithful when the body fits: everything is written and
no error is raised. -/
theorem ioCopy_complete (chunks : List (List Nat)) :
    ∀ bytesRead, bytesRead + (chunks.map List.length).sum ≤ maxImageSize →
      ioCopy maxImageSize bytesRead chunks = (chunks.foldr (· ++ ·) [], false) := by
  induction chunks with
  | nil =>
    intro br _
    rfl
  | cons c rest ih =>
    intro br h
    have hc : ¬ br + c.length > maxImageSize := by
      simp only [List.map_cons, List.sum_cons] at h
      omega
    have hrec := ih (br + c.length) (by
      simp only [List.map_cons, List.sum_cons] at h ⊢
      omega)
    simp only [ioCopy, crRead]
    simp [hc, hrec]

end ImageGem
namespace ImageGem

/-- C3 counterexample: on the pass-through fast path a 6 MiB upstream body
is partially delivered — `io.Copy` writes the bytes each `Read` returned
before the counting reader's error surfaces, so the (nonempty) body bytes
reach the client together with the size-limit failure. -/
theorem C3_cex :
    (ImageGet ⟨"example.com/a.jpg", [], ""⟩
        ⟨false, 200, "image/jpeg", [List.replicate 6291456 0], none⟩).outcome =
      .fastPath "image/jpeg" (List.replicate 6291456 0) true ∧
    List.replicate 6291456 (0 : Nat) ≠ [] := by
  have hval : validateRequest ⟨"example.com/a.jpg", [], ""⟩ =
      .ok ⟨0, 0, 0, 0, .unknown, .val 0, .val 0, false, false, false⟩ := by decide
  have hlen : (List.replicate 6291456 (0 : Nat)).length = 6291456 :=
    List.length_replicate 6291456 0
  have hnil : List.replicate 6291456 (0 : Nat) ≠ [] := by
    intro h
    have := congrArg List.length h
    rw [hlen] at this
    simp at this
  refine ⟨?_, hnil⟩
  simp only [ImageGet, hval, fetchStage]
  norm_num [ioCopy, crRead, hlen, maxImageSize, isSupportedImageFormat]

/-- C3 amended: the read that pushes the byte counter past the ceiling
errors, and once the counter exceeds the ceiling every subsequent read
errors and the counter stays above it; on the transform path an oversized
body always ends in an error response with no image output; on the
pass-through fast path the copy also ends in the size error, but the bytes
read before detection (a nonempty prefix including the crossing chunk) have
already been written to the response. -/
theorem C3_amended (maxS bytesRead n : Nat) (req : Request) (up : Upstream)
    (chunks : List (List Nat)) :
    (bytesRead + n > maxS → (crRead maxS bytesRead n).2 = true) ∧
    (bytesRead > maxS →
        (crRead maxS bytesRead n).2 = true ∧ (crRead maxS bytesRead n).1 > maxS) ∧
    (req.query ≠ [] → up.contentType ≠ "image/svg+xml" →
        (up.chunks.map List.length).sum > maxImageSize →
        ∃ s e, (ImageGet req up).outcome = .errored s e) ∧
    ((chunks.map List.length).sum > maxImageSize →
        (ioCopy maxImageSize 0 chunks).2 = true ∧
        (ioCopy maxImageSize 0 chunks).1 ≠ []) := by
  refine ⟨?_, ?_, ?_, ?_⟩
  · intro h
    simp [crRead, h]
  · intro h
    constructor
    · simp [crRead]
      omega
    · simp [crRead]
      omega
  · intro hq hsvg hsz
    cases hval : validateRequest req with
    | error e => exact ⟨400, e, by simp [ImageGet, hval]⟩
    | ok v =>
      have hq' : req.query.isEmpty = false := by
        cases hqq : req.query with
        | nil => exact absurd hqq hq
        | cons a l => rfl
      simp only [ImageGet, hval, fetchStage, hq', hsvg, hsz]
      simp only [Bool.false_eq_true, false_or, or_false, if_true, if_false]
      split_ifs with h1 h2 h3 h4
      all_goals first
        | exact ⟨500, .fetchFailed, rfl⟩
        | exact ⟨up.status, .upstreamStatus up.status, rfl⟩
        | exact ⟨400, .unsupportedFormat, rfl⟩
        | exact ⟨400, .decodeFailed, rfl⟩
  · intro hsz
    exact ioCopy_overflow chunks 0 (by omega) (by omega)

/-- Witness for C3's amended theorem: a counting reader already past the
ceiling errors on the next read, and a single 6 MiB chunk makes the copy
loop fail. -/
theorem C3_amended_witness :
    (crRead maxImageSize 6000000 0).2 = true ∧
    (ioCopy maxImageSize 0 [List.replicate 6291456 (0 : Nat)]).2 = true := by
  constructor
  · exact ((C3_amended maxImageSize 6000000 0 ⟨"", [], ""⟩
      ⟨false, 200, "", [], none⟩ []).2.1 (by norm_num [maxImageSize])).1
  · exact ((C3_amended maxImageSize 0 0 ⟨"", [], ""⟩ ⟨false, 200, "", [], none⟩
      [List.replicate 6291456 (0 : Nat)]).2.2.2 (by
        norm_num [maxImageSize, List.length_replicate])).1

end ImageGem
namespace ImageGem

/-- Modelled from the spec's parameter table: the query keys (aliases
included) that denote transform parameters.  This follows the spec's words —
the code itself never consults such a list — and exists to compare the
spec's "carries no transform parameters" with the code's raw-query test. -/
def specTransformParamKeys : List String :=
  ["h", "height", "w", "width", "r", "rotate", "q", "quality", "f", "format",
   "s", "sharpen", "b", "blur", "up", "strip", "webp"]

/-- Whether the query carries any transform parameter, per the spec's
parameter table. -/
def specHasTransformParams (q : List (String × String)) : Bool :=
  q.any (fun p => specTransformParamKeys.contains p.1)

/-- C5 counterexample: a request whose only query parameter is the
unrecognised key `x` carries no transform parameters (per the spec's
parameter table), yet the fast path is not taken: the code tests raw-query
nonemptiness, so the image is decoded and re-encoded. -/
theorem C5_cex :
    specHasTransformParams [("x", "1")] = false ∧
    (ImageGet ⟨"example.com/cat.jpg", [("x", "1")], ""⟩
        ⟨false, 200, "image/jpeg", [[1, 2, 3]], some ⟨1000, 800, .jpeg, false⟩⟩).outcome =
      .transformed none .jpeg 0 false := by
  decide

/-- C5 amended: the fast path is taken iff the raw query string is empty or
the upstream content type is `image/svg+xml`; on the fast path with a body
within the size ceiling, the response body is byte-identical to the
upstream body (the concatenation of all chunks), the content type is passed
through unchanged, and no decode, transform or re-encode occurs. -/
theorem C5_amended (req : Request) (up : Upstream) (v : Validated)
    (hval : validateRequest req = .ok v) (hff : up.fetchFails = false)
    (hst : up.status = 200) (hsup : isSupportedImageFormat up.contentType = true) :
    ((∃ ct w s, (ImageGet req up).outcome = .fastPath ct w s) ↔
        (req.query = [] ∨ up.contentType = "image/svg+xml")) ∧
    ((req.query = [] ∨ up.contentType = "image/svg+xml") →
        (up.chunks.map List.length).sum ≤ maxImageSize →
        (ImageGet req up).outcome =
          .fastPath up.contentType (up.chunks.foldr (· ++ ·) []) false) := by
  have hmain : ∀ h : req.query.isEmpty = true ∨ up.contentType = "image/svg+xml",
      (ImageGet req up).outcome =
        .fastPath up.contentType (ioCopy maxImageSize 0 up.chunks).1
          (ioCopy maxImageSize 0 up.chunks).2 := by
    intro h
    simp only [ImageGet, hval, fetchStage, hff, hst, hsup]
    rcases h with h | h
    · have hq : req.query = [] := List.isEmpty_iff.mp h
      simp [hq]
    · simp [h]
  have hiff : (req.query.isEmpty = true ∨ up.contentType = "image/svg+xml") ↔
      (req.query = [] ∨ up.contentType = "image/svg+xml") := by
    rw [List.isEmpty_iff]
  constructor
  · constructor
    · rintro ⟨ct, w, s, hout⟩
      by_cases h : req.query.isEmpty = true ∨ up.contentType = "image/svg+xml"
      · exact hiff.mp h
      · exfalso
        simp only [ImageGet, hval, fetchStage, hff, hst, hsup] at hout
        rw [if_neg (by simp [hff])] at hout
        rw [if_neg (by simp [hst])] at hout
        rw [if_neg (by simp [hsup])] at hout
        rw [if_neg h] at hout
        split_ifs at hout <;> cases himg : up.image <;> simp_all
    · intro h
      exact ⟨_, _, _, hmain (hiff.mpr h)⟩
  · intro h hsz
    rw [hmain (hiff.mpr h), ioCopy_complete up.chunks 0 (by omega)]

end ImageGem
namespace ImageGem

/-- Witness for C5's amended theorem: a query-less JPEG request copies the
chunked body through byte-identically. -/
theorem C5_amended_witness :
    (ImageGet ⟨"example.com/a.jpg", [], ""⟩
        ⟨false, 200, "image/jpeg", [[1, 2], [3]], some ⟨10, 10, .jpeg, false⟩⟩).outcome =
      .fastPath "image/jpeg" [1, 2, 3] false := by
  have h := (C5_amended ⟨"example.com/a.jpg", [], ""⟩
    ⟨false, 200, "image/jpeg", [[1, 2], [3]], some ⟨10, 10, .jpeg, false⟩⟩
    ⟨0, 0, 0, 0, .unknown, .val 0, .val 0, false, false, false⟩ (by decide) rfl rfl (by decide)).2
    (Or.inl rfl) (by decide)
  simpa using h

theorem getSchemeAux_http (t : List Char) :
    getSchemeAux [] ('h' :: 't' :: 't' :: 'p' :: ':' :: t) =
      .found ['h', 't', 't', 'p'] t := rfl

theorem getSchemeAux_https (t : List Char) :
    getSchemeAux [] ('h' :: 't' :: 't' :: 'p' :: 's' :: ':' :: t) =
      .found ['h', 't', 't', 'p', 's'] t := rfl

end ImageGem
namespace ImageGem

/-- C9 counterexample: `ftp://example.com` has scheme `ftp`, which the
claim says must be rejected with an unsupported-scheme error; instead the
code prepends `https://` (the input does not start with the literal
`http://`/`https://`) and normalization succeeds. -/
theorem C9_cex :
    goURLParse "ftp://example.com" = some ⟨"ftp", "//example.com"⟩ ∧
    normalizeURL "ftp://example.com" = .ok "https://ftp://example.com" := by
  decide

/-- For a string whose characters start with `http:` or `https:`, the parser
either fails on a control character or extracts the scheme `http`/`https`. -/
theorem goURLParse_http_like (u : String)
    (h : (∃ t, u.data = 'h' :: 't' :: 't' :: 'p' :: ':' :: t) ∨
         (∃ t, u.data = 'h' :: 't' :: 't' :: 'p' :: 's' :: ':' :: t)) :
    goURLParse u = none ∨
    (∃ r, goURLParse u = some ⟨"http", r⟩) ∨
    (∃ r, goURLParse u = some ⟨"https", r⟩) := by
  unfold goURLParse
  by_cases hctl : u.toList.any (fun c => decide (c.toNat < 32 ∨ c.toNat = 127)) = true
  · left
    rw [if_pos hctl]
  · rcases h with ⟨t, ht⟩ | ⟨t, ht⟩
    · right; left
      refine ⟨String.mk t, ?_⟩
      rw [if_neg hctl]
      have htl : u.toList = 'h' :: 't' :: 't' :: 'p' :: ':' :: t := ht
      rw [htl, getSchemeAux_http]
      have hlow : ((['h', 't', 't', 'p'].map Char.toLower) : List Char) =
          ['h', 't', 't', 'p'] := by decide
      simp only [hlow]
    · right; right
      refine ⟨String.mk t, ?_⟩
      rw [if_neg hctl]
      have htl : u.toList = 'h' :: 't' :: 't' :: 'p' :: 's' :: ':' :: t := ht
      rw [htl, getSchemeAux_https]
      have hlow : ((['h', 't', 't', 'p', 's'].map Char.toLower) : List Char) =
          ['h', 't', 't', 'p', 's'] := by decide
      simp only [hlow]

/-- C9 amended: the unsupported-scheme error is unreachable — after the
literal-prefix test every parsed URL has scheme `http` or `https`, so
normalization fails only when URL parsing itself fails; any input not
starting with the literal `http://` or `https://` (even one carrying
another scheme) gets `https://` prepended and that result is used. -/
theorem C9_amended (inputURL : String) :
    (∀ sch, normalizeURL inputURL ≠ .error (.unsupportedScheme sch)) ∧
    (goStartsWith inputURL "http://" = false → goStartsWith inputURL "https://" = false →
        normalizeURL inputURL = .ok ("https://" ++ inputURL) ∨
        normalizeURL inputURL = .error .parseFailed) := by
  have e1 : ¬(("http" : String) ≠ "http" ∧ ("http" : String) ≠ "https") := by decide
  have e2 : ¬(("https" : String) ≠ "http" ∧ ("https" : String) ≠ "https") := by decide
  have hform : ∀ (u : String),
      (goStartsWith u "http://" || goStartsWith u "https://") = true →
      (∃ t, u.data = 'h' :: 't' :: 't' :: 'p' :: ':' :: t) ∨
      (∃ t, u.data = 'h' :: 't' :: 't' :: 'p' :: 's' :: ':' :: t) := by
    intro u hu
    rcases Bool.or_eq_true_iff.mp hu with h | h
    · left
      obtain ⟨t, ht⟩ := List.isPrefixOf_iff_prefix.mp h
      exact ⟨'/' :: '/' :: t, by simpa using ht.symm⟩
    · right
      obtain ⟨t, ht⟩ := List.isPrefixOf_iff_prefix.mp h
      exact ⟨'/' :: '/' :: t, by simpa using ht.symm⟩
  have hprep : ∀ (s : String),
      (∃ t, ("https://" ++ s).data = 'h' :: 't' :: 't' :: 'p' :: 's' :: ':' :: t) := by
    intro s
    refine ⟨'/' :: '/' :: s.data, ?_⟩
    have h := String.data_append "https://" s
    simp only [h]
    rfl
  constructor
  · intro sch
    by_cases hpre : (goStartsWith inputURL "http://" || goStartsWith inputURL "https://") = true
    · rcases goURLParse_http_like inputURL (hform inputURL hpre) with hn | ⟨r, hs⟩ | ⟨r, hs⟩
      · simp [normalizeURL, hpre, hn]
      · simp [normalizeURL, hpre, hs, e1]
      · simp [normalizeURL, hpre, hs, e2]
    · rcases goURLParse_http_like ("https://" ++ inputURL) (Or.inr (hprep inputURL)) with
        hn | ⟨r, hs⟩ | ⟨r, hs⟩
      · simp [normalizeURL, hpre, hn]
      · simp [normalizeURL, hpre, hs, e1]
      · simp [normalizeURL, hpre, hs, e2]
  · intro h1 h2
    rcases goURLParse_http_like ("https://" ++ inputURL) (Or.inr (hprep inputURL)) with
      hn | ⟨r, hs⟩ | ⟨r, hs⟩
    · right
      simp [normalizeURL, h1, h2, hn]
    · left
      simp [normalizeURL, h1, h2, hs, e1]
    · left
      simp [normalizeURL, h1, h2, hs, e2]

/-- Witness for C9's amended theorem on a scheme-less URL. -/
theorem C9_amended_witness :
    normalizeURL "example.com/cat.jpg" = .ok "https://example.com/cat.jpg" ∨
    normalizeURL "example.com/cat.jpg" = .error .parseFailed := by
  exact (C9_amended "example.com/cat.jpg").2 (by decide) (by decide)

end ImageGem
